import Mathlib

/-!
Shallow embedding of the KOTOR extractor core (`src/extractor`) used to
check the repository's natural-language specification.

Modelling conventions:
* bytes are `Nat` values (< 256 in practice) and byte strings are `List Nat`;
* Python text strings are `List Char`;
* Python slicing `data[a:b]` with nonnegative bounds is `pySlice`;
* code that can raise returns `Except`/`Option`, or a dedicated result type;
* external library calls (`zlib.compress`, pykotor's TPC loader) are
  modelled as explicit function parameters of the embedding.
-/

/-- Python slice `data[start:stop]` for nonnegative `start ≤ stop`
(the only shape used by the extractors): the elements from index `start`
up to `min stop data.length`, silently truncated when out of range. -/
def pySlice (data : List Nat) (start stop : Nat) : List Nat :=
  (data.drop start).take (stop - start)

/-- Python `str.lower()` on the ASCII resource names this code handles. -/
def pyLower (s : List Char) : List Char := s.map Char.toLower

/-- Characters allowed by `Sanitize.sanitize_resref`'s whitelist
`[A-Za-z0-9_\-]` (all of which are printable, so the preceding
`isprintable` filter in the source collapses into this one filter). -/
def allowedFilenameChar (c : Char) : Bool :=
  decide (('A' ≤ c ∧ c ≤ 'Z') ∨ ('a' ≤ c ∧ c ≤ 'z') ∨
    ('0' ≤ c ∧ c ≤ '9') ∨ c = '_' ∨ c = '-')

/-- Source `Sanitize.sanitize_resref`: empty input and all-filtered input map to
`"unknown"`, otherwise characters outside the whitelist are removed. -/
def sanitize_resref (name : List Char) : List Char :=
  if name.isEmpty then "unknown".toList
  else
    let n := name.filter allowedFilenameChar
    if n.isEmpty then "unknown".toList else n

/-- Source `ResourceTypes.ResourceTypeInfo._TABLE`: type code → file extension
(descriptions dropped; they play no role in the claims). -/
def RESOURCE_TABLE : List (Nat × List Char) :=
  [(2002, "mdl".toList), (2007, "tpc".toList), (2009, "ncs".toList),
   (2010, "nss".toList), (2012, "are".toList), (2014, "ifo".toList),
   (2016, "wok".toList), (2017, "2da".toList), (2018, "tlk".toList),
   (2022, "txi".toList), (2023, "git".toList), (2025, "uti".toList),
   (2027, "utc".toList), (2029, "dlg".toList), (2032, "utt".toList),
   (2033, "dds".toList), (2035, "uts".toList), (2036, "ltr".toList),
   (2037, "gff".toList), (2038, "fac".toList), (2040, "ute".toList),
   (2042, "utd".toList), (2044, "utp".toList), (2047, "gui".toList),
   (2051, "utm".toList), (2052, "dwk".toList), (2053, "pwk".toList),
   (2056, "jrl".toList), (2058, "utw".toList), (2060, "ssf".toList),
   (3000, "lyt".toList), (3001, "vis".toList), (3002, "rim".toList),
   (3003, "pth".toList), (3004, "lip".toList), (3007, "tpc".toList),
   (3008, "mdx".toList), (9997, "erf".toList), (9998, "bif".toList),
   (9999, "key".toList)]

namespace ResourceTypeInfo

/-- Source `ResourceTypeInfo.get_extension`: dictionary lookup, `none` for an
unknown type code (the Python method returns `None`). -/
def get_extension (type_id : Nat) : Option (List Char) :=
  RESOURCE_TABLE.lookup type_id

end ResourceTypeInfo

/-! ### KEY packed-identifier bit fields (`KeyFormat.Key._assign_bif_indexes`) -/

/-- Source `entry.BIFIndex = (rid >> 20) & 0xFFF` (KeyFormat.py line 102). -/
def key_bif_index (rid : Nat) : Nat := (rid >>> 20) &&& 0xFFF

/-- Source `entry.ResourceIndex = rid & 0xFFFFF` (KeyFormat.py line 103). -/
def key_resource_index (rid : Nat) : Nat := rid &&& 0xFFFFF

/-- Source `entry.FixedIndex = (rid >> 14) & 0x3F` (KeyFormat.py line 104). -/
def key_fixed_index (rid : Nat) : Nat := (rid >>> 14) &&& 0x3F

/-! ### Header signature/version checks (C4)

Each `_read_header` validates the 4-byte magic and the 4-byte version
field before any table is parsed.  The checks are modelled as boolean
acceptance functions of the two raw 4-byte fields. -/

/-- The five accepted ERF file types: `"ERF "`, `"MOD "`, `"HAK "`,
`"SAV "`, `"NWM "` (ErfFormat.py line 102). -/
def erfMagics : List (List Nat) :=
  [[69, 82, 70, 32], [77, 79, 68, 32], [72, 65, 75, 32],
   [83, 65, 86, 32], [78, 87, 77, 32]]

/-- Byte string `"V1.0"`. -/
def vOneDotZero : List Nat := [86, 49, 46, 48]

/-- Byte string `"RIM "` (RimFormat.py line 69). -/
def rimMagic : List Nat := [82, 73, 77, 32]

/-- Byte string `"KEY "` (KeyFormat.py line 41). -/
def keyMagic : List Nat := [75, 69, 89, 32]

/-- Byte string `"BIFF"` (BifFormat.py line 92). -/
def bifMagic : List Nat := [66, 73, 70, 70]

/-- Source `ERF._read_header`: accepts iff the type is one of the five magics and
the version is exactly `"V1.0"`. -/
def erf_header_ok (fileType version : List Nat) : Bool :=
  decide (fileType ∈ erfMagics) && decide (version = vOneDotZero)

/-- Source `RIM._read_header`: accepts iff the type is `"RIM "` and the version is
exactly `"V1.0"`. -/
def rim_header_ok (fileType version : List Nat) : Bool :=
  decide (fileType = rimMagic) && decide (version = vOneDotZero)

/-- Source `Key._read_header`: accepts iff the type is `"KEY "` and the version
field merely starts with `"V1"` (`self.FileVersion.startswith(b"V1")`). -/
def key_header_ok (fileType version : List Nat) : Bool :=
  decide (fileType = keyMagic) && decide (version.take 2 = [86, 49])

/-- Source `BifFormat.Header.set_variables`: accepts iff the type is `"BIFF"` and
the version starts with `"V1"`. -/
def bif_header_ok (fileType version : List Nat) : Bool :=
  decide (fileType = bifMagic) && decide (version.take 2 = [86, 49])

/-- Number of positions where two byte strings of equal length differ. -/
def diffCount (a b : List Nat) : Nat :=
  ((a.zip b).filter (fun p => decide (p.1 ≠ p.2))).length

/-- Predicate: `s` is a single-byte mutation of `m`: same length, exactly one byte
position differs. -/
def isByteMutationOf (s m : List Nat) : Prop :=
  s.length = m.length ∧ diffCount s m = 1

instance (s m : List Nat) : Decidable (isByteMutationOf s m) := by
  unfold isByteMutationOf; infer_instance

theorem diffCount_self (l : List Nat) : diffCount l l = 0 := by
  induction l with
  | nil => rfl
  | cons a l ih => simpa [diffCount, List.zip_cons_cons] using ih

theorem ne_of_isByteMutationOf {s m : List Nat} (h : isByteMutationOf s m) :
    s ≠ m := by
  intro he
  subst he
  have := h.2
  rw [diffCount_self] at this
  exact Nat.zero_ne_one this

/-- Any two distinct ERF magics differ in more than one byte, so a
single-byte mutation of one magic is never another magic. -/
theorem erfMagics_pairwise_far :
    ∀ m1 ∈ erfMagics, ∀ m2 ∈ erfMagics, m1 = m2 ∨ diffCount m1 m2 ≠ 1 := by
  decide

/-! ### ERF entries and extraction -/

/-- Combined ERF entry (`ErfFormat.ERFEntry`). -/
structure ERFEntry where
  ResRef : List Char
  ResType : Nat
  ResID : Nat
  Offset : Nat
  Size : Nat
deriving DecidableEq

namespace ERF

/-- Source `ERF.extract_entry`: `self.data[entry.Offset : entry.Offset + entry.Size]`
(ErfFormat.py lines 189-192). -/
def extract_entry (data : List Nat) (e : ERFEntry) : List Nat :=
  pySlice data e.Offset (e.Offset + e.Size)

end ERF

/-! ### BIF variable-resource extraction -/

/-- Source `BifFormat.VariableResourceEntry`. -/
structure VariableResourceEntry where
  ID : Nat
  Offset : Nat
  FileSize : Nat
  ResourceType : Nat
deriving DecidableEq

/-- Source `BifFormat.FixedResourceEntry`. -/
structure FixedResourceEntry where
  ID : Nat
  Offset : Nat
  PartCount : Nat
  FileSize : Nat
  ResourceType : Nat
deriving DecidableEq

/-- In-memory state of a loaded BIF (`BifFormat.BIF`): the parsed tables
and the raw file bytes. -/
structure BIFData where
  variable_resources : List VariableResourceEntry
  fixed_resources : List FixedResourceEntry
  data : List Nat
deriving DecidableEq

namespace BIF

/-- Source `BIF.get_variable_resource_data` (BifFormat.py lines 62-64); an
out-of-range index is Python's `IndexError`, modelled as `none`. -/
def get_variable_resource_data (b : BIFData) (index : Nat) :
    Option (List Nat) :=
  (b.variable_resources[index]?).map
    (fun e => pySlice b.data e.Offset (e.Offset + e.FileSize))

/-- Source `BIF.get_fixed_resource_data` (BifFormat.py lines 66-68). -/
def get_fixed_resource_data (b : BIFData) (index : Nat) :
    Option (List Nat) :=
  (b.fixed_resources[index]?).map
    (fun e => pySlice b.data e.Offset (e.Offset + e.FileSize))

end BIF

/-! ### C1: extraction is a raw slice; no truncation error exists -/

/-- C1 (counterexample): an ERF entry whose `Offset + Size` exceeds the
buffer length is extracted without any error, and the result is shorter
than `Size` — the code silently truncates instead of raising the
`TruncatedData` error the claim requires. -/
theorem c1_counterexample :
    ERF.extract_entry [0, 1, 2] ⟨['a'], 2007, 0, 2, 5⟩ = [2] ∧
    (ERF.extract_entry [0, 1, 2] ⟨['a'], 2007, 0, 2, 5⟩).length ≠ 5 := by
  decide

/-- C1 (amended): `extract_entry` returns exactly the Python byte slice
`buffer[offset : offset + size]` with no interpretation; the result length
is `min size (buffer.length - offset)`, hence equals `entry.Size` exactly
when `offset + size ≤ buffer.length`; extraction is a pure function, so
extracting the same entry twice is byte-identical; out-of-range entries
are silently truncated rather than raising an error.  The same slice
shape governs `BIF.get_variable_resource_data`. -/
theorem c1_amended (data : List Nat) (e : ERFEntry) :
    ERF.extract_entry data e = pySlice data e.Offset (e.Offset + e.Size) ∧
    (ERF.extract_entry data e).length = min e.Size (data.length - e.Offset) ∧
    (e.Offset + e.Size ≤ data.length →
      (ERF.extract_entry data e).length = e.Size) ∧
    ERF.extract_entry data e = ERF.extract_entry data e ∧
    (∀ (b : BIFData) (i : Nat) (v : VariableResourceEntry) (d : List Nat),
      b.variable_resources[i]? = some v →
      BIF.get_variable_resource_data b i = some d →
      d.length = min v.FileSize (b.data.length - v.Offset)) := by
  have hlen : (ERF.extract_entry data e).length
      = min e.Size (data.length - e.Offset) := by
    simp [ERF.extract_entry, pySlice]
  refine ⟨rfl, hlen, ?_, rfl, ?_⟩
  · intro h
    rw [hlen]
    exact Nat.min_eq_left (by omega)
  · intro b i v d hv hd
    simp [BIF.get_variable_resource_data, hv] at hd
    subst hd
    simp [pySlice]

/-- C1 witness: the amended theorem evaluated at a concrete in-range entry. -/
theorem c1_witness :
    (ERF.extract_entry [0, 1, 2, 3] ⟨['a'], 2007, 0, 1, 2⟩).length = 2 :=
  (c1_amended [0, 1, 2, 3] ⟨['a'], 2007, 0, 1, 2⟩).2.2.1 (by decide)

/-! ### C2: packed-identifier bit fields -/

/-- C2: for every packed 32-bit identifier, the derived BIF (segment)
index is `(id >> 20) & 0xFFF`, the variable-slot index is `id & 0xFFFFF`,
and the fixed-slot index is `(id >> 14) & 0x3F`, which is always below
64. -/
theorem c2_bit_fields (rid : Nat) :
    key_bif_index rid = (rid >>> 20) &&& 0xFFF ∧
    key_resource_index rid = rid &&& 0xFFFFF ∧
    key_fixed_index rid = (rid >>> 14) &&& 0x3F ∧
    key_fixed_index rid < 64 := by
  refine ⟨rfl, rfl, rfl, ?_⟩
  have h : key_fixed_index rid ≤ 0x3F := Nat.and_le_right
  omega

/-! ### C4: accepted magic/version combinations and single-byte mutations -/

/-- C4 (counterexample): the KEY loader accepts the version bytes
`"V1.5"`, which are a single-byte mutation of the documented `"V1.0"`
(`Key._read_header` only requires `startswith(b"V1")`); the BIF loader
behaves the same.  The claim that every single-byte mutation of a
documented signature/version combination is rejected is therefore
false. -/
theorem c4_counterexample :
    isByteMutationOf [86, 49, 46, 53] vOneDotZero ∧
    key_header_ok keyMagic [86, 49, 46, 53] = true ∧
    bif_header_ok bifMagic [86, 49, 46, 53] = true := by
  decide

/-- C4 (amended): ERF and RIM accept exactly the documented
magic/version combinations and reject every single-byte mutation of
them (for ERF, a mutation of any of its five magics); KEY and BIF
reject every single-byte mutation of their magic, but check only the
first two version bytes `"V1"`, so a version that is a single-byte
mutation of `"V1.0"` is accepted precisely when the mutation is in the
last two bytes.  All checks still run before any table is parsed.
Both halves are settled: the rejection conjuncts cover the mutations,
the acceptance conjuncts show each documented combination is accepted,
and the final biconditionals characterize the accepted set of each
format exactly. -/
theorem c4_amended :
    (∀ m ∈ erfMagics, ∀ s v : List Nat, isByteMutationOf s m →
      erf_header_ok s v = false) ∧
    (∀ s v : List Nat, isByteMutationOf v vOneDotZero →
      erf_header_ok s v = false) ∧
    (∀ s v : List Nat, isByteMutationOf s rimMagic →
      rim_header_ok s v = false) ∧
    (∀ s v : List Nat, isByteMutationOf v vOneDotZero →
      rim_header_ok s v = false) ∧
    (∀ s v : List Nat, isByteMutationOf s keyMagic →
      key_header_ok s v = false) ∧
    (∀ v : List Nat, isByteMutationOf v vOneDotZero →
      (key_header_ok keyMagic v = true ↔ v.take 2 = [86, 49])) ∧
    (∀ s v : List Nat, isByteMutationOf s bifMagic →
      bif_header_ok s v = false) ∧
    (∀ v : List Nat, isByteMutationOf v vOneDotZero →
      (bif_header_ok bifMagic v = true ↔ v.take 2 = [86, 49])) ∧
    (∀ m ∈ erfMagics, erf_header_ok m vOneDotZero = true) ∧
    rim_header_ok rimMagic vOneDotZero = true ∧
    key_header_ok keyMagic vOneDotZero = true ∧
    bif_header_ok bifMagic vOneDotZero = true ∧
    (∀ s v : List Nat,
      erf_header_ok s v = true ↔ s ∈ erfMagics ∧ v = vOneDotZero) ∧
    (∀ s v : List Nat,
      rim_header_ok s v = true ↔ s = rimMagic ∧ v = vOneDotZero) ∧
    (∀ s v : List Nat,
      key_header_ok s v = true ↔ s = keyMagic ∧ v.take 2 = [86, 49]) ∧
    (∀ s v : List Nat,
      bif_header_ok s v = true ↔ s = bifMagic ∧ v.take 2 = [86, 49]) := by
  refine ⟨?_, ?_, ?_, ?_, ?_, ?_, ?_, ?_, by decide, by decide, by decide,
    by decide, ?_, ?_, ?_, ?_⟩
  · intro m hm s v hmut
    have hnot : s ∉ erfMagics := by
      intro hs
      rcases erfMagics_pairwise_far s hs m hm with h | h
      · exact ne_of_isByteMutationOf hmut h
      · exact h hmut.2
    simp [erf_header_ok, hnot]
  · intro s v hmut
    simp [erf_header_ok, ne_of_isByteMutationOf hmut]
  · intro s v hmut
    simp [rim_header_ok, ne_of_isByteMutationOf hmut]
  · intro s v hmut
    simp [rim_header_ok, ne_of_isByteMutationOf hmut]
  · intro s v hmut
    simp [key_header_ok, ne_of_isByteMutationOf hmut]
  · intro v _hmut
    simp [key_header_ok]
  · intro s v hmut
    simp [bif_header_ok, ne_of_isByteMutationOf hmut]
  · intro v _hmut
    simp [bif_header_ok]
  · intro s v
    simp [erf_header_ok]
  · intro s v
    simp [rim_header_ok]
  · intro s v
    simp [key_header_ok]
  · intro s v
    simp [bif_header_ok]

/-- C4 witness: the amended theorem at concrete inputs — the documented
combinations `"ERF "`/`"MOD "`/`"RIM "`/`"KEY "`/`"BIFF"` with `"V1.0"`
are accepted, a one-byte signature mutation `"XRF "` is rejected by ERF,
a one-byte version mutation `"V2.0"` is rejected by ERF and the KEY
signature mutation is rejected too, while the KEY version mutation
`"V1.5"` is accepted because only its last two bytes differ. -/
theorem c4_witness :
    erf_header_ok [88, 82, 70, 32] vOneDotZero = false ∧
    erf_header_ok [69, 82, 70, 32] [86, 50, 46, 48] = false ∧
    rim_header_ok [82, 73, 77, 33] vOneDotZero = false ∧
    key_header_ok [75, 69, 89, 33] vOneDotZero = false ∧
    (key_header_ok keyMagic [86, 49, 46, 53] = true ↔
      [86, 49, 46, 53].take 2 = [86, 49]) ∧
    erf_header_ok [69, 82, 70, 32] vOneDotZero = true ∧
    erf_header_ok [77, 79, 68, 32] vOneDotZero = true ∧
    rim_header_ok rimMagic vOneDotZero = true ∧
    key_header_ok keyMagic vOneDotZero = true ∧
    bif_header_ok bifMagic vOneDotZero = true := by
  obtain ⟨h1, h2, h3, -, h5, h6, -, -, h9, h10, h11, h12, h13, -⟩ :=
    c4_amended
  refine ⟨h1 [69, 82, 70, 32] (by decide) [88, 82, 70, 32] vOneDotZero
      (by decide),
    h2 [69, 82, 70, 32] [86, 50, 46, 48] (by decide),
    h3 [82, 73, 77, 33] vOneDotZero (by decide),
    h5 [75, 69, 89, 33] vOneDotZero (by decide),
    h6 [86, 49, 46, 53] (by decide),
    h9 [69, 82, 70, 32] (by decide),
    (h13 [77, 79, 68, 32] vOneDotZero).mpr (by decide),
    h10, h11, h12⟩

/-! ### Lookup results (exceptions as values) -/

/-- Result of a by-name lookup: `ok` (possibly `none`) or the
`ValueError` raised when the name exists under several resource types. -/
inductive LookupResult (α : Type) where
  | ok : Option α → LookupResult α
  | ambiguous : LookupResult α
deriving DecidableEq

namespace ERF

/-- Source `ERF.get_entries`: the `by_resref` bucket for the lower-cased name,
in insertion order (ErfFormat.py lines 85-87 and 170-171). -/
def get_entries (entries : List ERFEntry) (resref : List Char) :
    List ERFEntry :=
  entries.filter (fun e => pyLower e.ResRef == pyLower resref)

/-- Source `ERF.get_entry` (ErfFormat.py lines 173-187): no entries → `None`;
no requested type and several distinct types → `ValueError`; no requested
type and one distinct type → first entry; requested type → first entry of
that type, else `None`. -/
def get_entry (entries : List ERFEntry) (resref : List Char)
    (res_type : Option Nat) : LookupResult ERFEntry :=
  let es := get_entries entries resref
  if es.isEmpty then .ok none
  else
    match res_type with
    | none =>
      if 1 < (es.map (fun e => e.ResType)).dedup.length then .ambiguous
      else .ok es.head?
    | some t => .ok (es.find? (fun e => e.ResType == t))

end ERF

/-- A list with two distinct members has more than one element after
deduplication. -/
theorem one_lt_dedup_length {l : List Nat} {a b : Nat}
    (ha : a ∈ l) (hb : b ∈ l) (hne : a ≠ b) : 1 < l.dedup.length := by
  have ha2 : a ∈ l.dedup := List.mem_dedup.2 ha
  have hb2 : b ∈ l.dedup := List.mem_dedup.2 hb
  cases hd : l.dedup with
  | nil => rw [hd] at ha2; cases ha2
  | cons x xs =>
    cases xs with
    | nil =>
      rw [hd] at ha2 hb2
      simp at ha2 hb2
      exact absurd (ha2.trans hb2.symm) hne
    | cons y ys => simp

/-! ### ResourceManager (KEY mode) -/

/-- A KEY-table record after load (`KeyFormat.KeyEntry` with the indexes
assigned by `_assign_bif_indexes`). -/
structure KeyEntry where
  ResRef : List Char
  ResourceType : Nat
  ResID : Nat
  BIFIndex : Nat
  ResourceIndex : Nat
  FixedIndex : Nat
deriving DecidableEq

/-- Errors raised by `ResourceManager` paths, as values:
`FileNotFoundError` for a missing BIF, `IndexError` for an unresolvable
resource index, `KeyError("Unknown resource: ...")` for a failed by-name
export/extract. -/
inductive RMError where
  | fileNotFound
  | indexError
  | unknownResource
deriving DecidableEq

/-- Result of `ResourceManager._fetch_texture_bytes` when it hits:
the bytes plus the returned filename, split as `Path(name).stem` and
`Path(name).suffix` since the source manipulates those two parts. -/
structure Fetched where
  data : List Nat
  stem : List Char
  suffix : List Char
deriving DecidableEq

namespace RM

/-- Source `ResourceManager.get_resource_entries` in KEY mode: the `by_resref`
bucket for the lower-cased name (ResourceManager.py lines 38-40, 61-64). -/
def get_resource_entries (key_table : List KeyEntry) (resref : List Char) :
    List KeyEntry :=
  key_table.filter (fun e => pyLower e.ResRef == pyLower resref)

/-- Source `ResourceManager.get_resource_entry` in KEY mode
(ResourceManager.py lines 66-91): same disambiguation contract as
`ERF.get_entry`, over `ResourceType`. -/
def get_resource_entry (key_table : List KeyEntry) (resref : List Char)
    (resource_type : Option Nat) : LookupResult KeyEntry :=
  let entries := get_resource_entries key_table resref
  if entries.isEmpty then .ok none
  else
    match resource_type with
    | none =>
      if 1 < (entries.map (fun e => e.ResourceType)).dedup.length then
        .ambiguous
      else .ok entries.head?
    | some t => .ok (entries.find? (fun e => e.ResourceType == t))

/-- Source `ResourceManager.extract_entry` in KEY mode (ResourceManager.py lines
103-119).  `bifs` models `_load_bif` composed with the filesystem: the
BIF loaded for a given BIF index, or `none` when the file is missing
(`FileNotFoundError`).  The variable-slot index is tried first; the
fixed table is consulted only when the variable slot is out of range and
the fixed table is non-empty; otherwise `IndexError`. -/
def extract_entry (bifs : Nat → Option BIFData) (e : KeyEntry) :
    Except RMError (List Nat) :=
  match bifs e.BIFIndex with
  | none => .error .fileNotFound
  | some b =>
    match b.variable_resources[e.ResourceIndex]? with
    | some v => .ok (pySlice b.data v.Offset (v.Offset + v.FileSize))
    | none =>
      if b.fixed_resources.isEmpty then .error .indexError
      else
        match b.fixed_resources[e.FixedIndex]? with
        | some f => .ok (pySlice b.data f.Offset (f.Offset + f.FileSize))
        | none => .error .indexError

/-- Source `ResourceManager.export_entry` (ResourceManager.py lines 147-187),
with disk writes modelled as the returned `(filename, bytes)` pair and
the texture fallback (`_fetch_texture_bytes`) as the `fb` parameter.
On a primary extraction error the fallback is tried; only when the
fallback yields nothing is the original error re-raised. -/
def export_entry (bifs : Nat → Option BIFData) (e : KeyEntry)
    (fb : Option Fetched) : Except RMError (List Char × List Nat) :=
  match extract_entry bifs e with
  | .ok data =>
    let ext := (ResourceTypeInfo.get_extension e.ResourceType).getD
      "bin".toList
    .ok (sanitize_resref e.ResRef ++ '.' :: ext, data)
  | .error err =>
    match fb with
    | some f => .ok (sanitize_resref f.stem ++ f.suffix, f.data)
    | none => .error err

/-- Source `ResourceManager.export_resource` (ResourceManager.py lines 189-213):
any lookup exception is swallowed (`entry = None`); with an entry it
defers to `export_entry`; without one it tries the fallback and then
raises `KeyError("Unknown resource: ...")` — not the original lookup
error. -/
def export_resource (bifs : Nat → Option BIFData)
    (key_table : List KeyEntry) (resref : List Char)
    (resource_type : Option Nat) (fb : Option Fetched) :
    Except RMError (List Char × List Nat) :=
  let entry : Option KeyEntry :=
    match get_resource_entry key_table resref resource_type with
    | .ambiguous => none
    | .ok o => o
  match entry with
  | some e => export_entry bifs e fb
  | none =>
    match fb with
    | some f => .ok (f.stem ++ f.suffix, f.data)
    | none => .error .unknownResource

end RM

/-! ### C3: ambiguous lookups fail loudly; typed lookups filter by type -/

/-- C3: for any loaded archive index (flat ERF entries or a KEY table),
if a name is indexed under two distinct type codes then a lookup without
an explicit type raises the ambiguous-resource `ValueError` instead of
returning an entry; a lookup with an explicit type never raises and any
entry it returns has exactly the requested type code (it returns `None`
when no entry of that type exists). -/
theorem c3_ambiguous_lookup (erf_entries : List ERFEntry)
    (key_table : List KeyEntry) (resref : List Char) :
    ((∃ e1 ∈ ERF.get_entries erf_entries resref,
      ∃ e2 ∈ ERF.get_entries erf_entries resref, e1.ResType ≠ e2.ResType) →
        ERF.get_entry erf_entries resref none = .ambiguous) ∧
    (∀ t : Nat, ∃ r : Option ERFEntry,
      ERF.get_entry erf_entries resref (some t) = .ok r ∧
      ∀ e, r = some e → e.ResType = t) ∧
    ((∃ e1 ∈ RM.get_resource_entries key_table resref,
      ∃ e2 ∈ RM.get_resource_entries key_table resref,
        e1.ResourceType ≠ e2.ResourceType) →
        RM.get_resource_entry key_table resref none = .ambiguous) ∧
    (∀ t : Nat, ∃ r : Option KeyEntry,
      RM.get_resource_entry key_table resref (some t) = .ok r ∧
      ∀ e, r = some e → e.ResourceType = t) := by
  refine ⟨?_, ?_, ?_, ?_⟩
  · rintro ⟨e1, he1, e2, he2, hne⟩
    have hnonempty : (ERF.get_entries erf_entries resref).isEmpty = false := by
      simp only [List.isEmpty_eq_false_iff_exists_mem]
      exact ⟨e1, he1⟩
    have hdedup : 1 < ((ERF.get_entries erf_entries resref).map
        (fun e => e.ResType)).dedup.length :=
      one_lt_dedup_length (List.mem_map_of_mem _ he1)
        (List.mem_map_of_mem _ he2) hne
    simp [ERF.get_entry, hnonempty, hdedup]
  · intro t
    by_cases h : (ERF.get_entries erf_entries resref).isEmpty
    · exact ⟨none, by simp [ERF.get_entry, h], by simp⟩
    · refine ⟨(ERF.get_entries erf_entries resref).find?
        (fun e => e.ResType == t), by simp [ERF.get_entry, h], ?_⟩
      intro e he
      have := List.find?_some he
      simpa using this
  · rintro ⟨e1, he1, e2, he2, hne⟩
    have hnonempty : (RM.get_resource_entries key_table resref).isEmpty
        = false := by
      simp only [List.isEmpty_eq_false_iff_exists_mem]
      exact ⟨e1, he1⟩
    have hdedup : 1 < ((RM.get_resource_entries key_table resref).map
        (fun e => e.ResourceType)).dedup.length :=
      one_lt_dedup_length (List.mem_map_of_mem _ he1)
        (List.mem_map_of_mem _ he2) hne
    simp [RM.get_resource_entry, hnonempty, hdedup]
  · intro t
    by_cases h : (RM.get_resource_entries key_table resref).isEmpty
    · exact ⟨none, by simp [RM.get_resource_entry, h], by simp⟩
    · refine ⟨(RM.get_resource_entries key_table resref).find?
        (fun e => e.ResourceType == t),
        by simp [RM.get_resource_entry, h], ?_⟩
      intro e he
      have := List.find?_some he
      simpa using this

/-- C3 witness: with a name filed under type codes 1 and 2, the untyped
lookup is ambiguous in both backends. -/
theorem c3_witness :
    ERF.get_entry [⟨"a".toList, 1, 0, 0, 0⟩, ⟨"a".toList, 2, 1, 0, 0⟩]
      "a".toList none = .ambiguous ∧
    RM.get_resource_entry
      [⟨"a".toList, 1, 0, 0, 0, 0⟩, ⟨"a".toList, 2, 1, 0, 0, 0⟩]
      "a".toList none = .ambiguous :=
  ⟨(c3_ambiguous_lookup [⟨"a".toList, 1, 0, 0, 0⟩, ⟨"a".toList, 2, 1, 0, 0⟩]
      [] "a".toList).1 (by decide),
   (c3_ambiguous_lookup []
      [⟨"a".toList, 1, 0, 0, 0, 0⟩, ⟨"a".toList, 2, 1, 0, 0, 0⟩]
      "a".toList).2.2.1 (by decide)⟩

/-! ### C6: fallback retry and error propagation -/

/-- C6 (counterexample): an ambiguous by-name export whose texture
fallback yields nothing raises the generic `KeyError("Unknown resource")`
— the original ambiguous-resource error is swallowed, contradicting the
claim that the original primary-path error is propagated. -/
theorem c6_counterexample :
    RM.get_resource_entry
      [⟨"a".toList, 1, 0, 0, 0, 0⟩, ⟨"a".toList, 2, 1, 0, 0, 0⟩]
      "a".toList none = .ambiguous ∧
    RM.export_resource (fun _ => none)
      [⟨"a".toList, 1, 0, 0, 0, 0⟩, ⟨"a".toList, 2, 1, 0, 0, 0⟩]
      "a".toList none none = .error .unknownResource := by
  exact ⟨by decide, rfl⟩

/-- C6 (amended): `export_entry` (export of an already-resolved entry)
retries the texture fallback on a primary extraction error and, when the
fallback yields nothing, propagates the original error unchanged; but the
by-name paths (`export_resource`, and `extract_resref` which has the same
shape) swallow the primary lookup error — an ambiguous lookup whose
fallback yields nothing surfaces as the generic unknown-resource
`KeyError`, not as the original ambiguous-resource error. -/
theorem c6_amended :
    (∀ (bifs : Nat → Option BIFData) (e : KeyEntry) (err : RMError),
      RM.extract_entry bifs e = .error err →
        RM.export_entry bifs e none = .error err) ∧
    (∀ (bifs : Nat → Option BIFData) (e : KeyEntry) (err : RMError)
        (f : Fetched),
      RM.extract_entry bifs e = .error err →
        RM.export_entry bifs e (some f) =
          .ok (sanitize_resref f.stem ++ f.suffix, f.data)) ∧
    (∀ (bifs : Nat → Option BIFData) (key_table : List KeyEntry)
        (resref : List Char),
      RM.get_resource_entry key_table resref none = .ambiguous →
        RM.export_resource bifs key_table resref none none =
          .error .unknownResource) := by
  refine ⟨?_, ?_, ?_⟩
  · intro bifs e err h
    simp [RM.export_entry, h]
  · intro bifs e err f h
    simp [RM.export_entry, h]
  · intro bifs key_table resref h
    simp [RM.export_resource, h]

/-- C6 witness: the amended theorem at concrete inputs — a missing BIF
error propagates through `export_entry` when there is no fallback, the
fallback bytes are written when there is one, and the ambiguous by-name
export degenerates to the unknown-resource error. -/
theorem c6_witness :
    RM.export_entry (fun _ => none) ⟨"a".toList, 1, 0, 0, 0, 0⟩ none
      = .error .fileNotFound ∧
    RM.export_entry (fun _ => none) ⟨"a".toList, 1, 0, 0, 0, 0⟩
      (some ⟨[7], "t".toList, ".png".toList⟩)
      = .ok (sanitize_resref "t".toList ++ ".png".toList, [7]) ∧
    RM.export_resource (fun _ => none)
      [⟨"a".toList, 1, 0, 0, 0, 0⟩, ⟨"a".toList, 2, 1, 0, 0, 0⟩]
      "a".toList none none = .error .unknownResource :=
  ⟨c6_amended.1 (fun _ => none) ⟨"a".toList, 1, 0, 0, 0, 0⟩ .fileNotFound rfl,
   c6_amended.2.1 (fun _ => none) ⟨"a".toList, 1, 0, 0, 0, 0⟩ .fileNotFound
     ⟨[7], "t".toList, ".png".toList⟩ rfl,
   c6_amended.2.2 (fun _ => none)
     [⟨"a".toList, 1, 0, 0, 0, 0⟩, ⟨"a".toList, 2, 1, 0, 0, 0⟩]
     "a".toList (by decide)⟩

/-! ### C9: export filenames and the extension fallback -/

/-- RIM table entry (`RimFormat.RIMEntry`); its `ResRef` is already
sanitized at parse time (RimFormat.py line 82). -/
structure RIMEntry where
  ResRef : List Char
  ResType : Nat
  ResID : Nat
  Offset : Nat
  Size : Nat
deriving DecidableEq

/-- Python's f-string rendering of a possibly-`None` extension:
`f"{ext}"` prints the literal `None` when the lookup failed. -/
def pyStrOfOptExt : Option (List Char) → List Char
  | some e => e
  | none => "None".toList

namespace ERF

/-- The filename `ERF.export_entry` writes under the output folder
(ErfFormat.py lines 194-204): `f"{sanitize_resref(entry.ResRef)}.{ext}"`
where `ext = ResourceTypeInfo.get_extension(entry.ResType)` with no
fallback for an unknown type. -/
def export_entry_name (e : ERFEntry) : List Char :=
  sanitize_resref e.ResRef ++
    '.' :: pyStrOfOptExt (ResourceTypeInfo.get_extension e.ResType)

end ERF

namespace RIM

/-- The filename `RIM.export_entry` writes (RimFormat.py lines 96-105):
`f"{entry.ResRef}.{ext}"` with `ext = get_extension(...) or "bin"`. -/
def export_entry_name (e : RIMEntry) : List Char :=
  e.ResRef ++
    '.' :: ((ResourceTypeInfo.get_extension e.ResType).getD "bin".toList)

end RIM

/-- C9 (counterexample): exporting an ERF entry whose type code 1234 is
absent from the registry produces the literal extension `None`
(`"foo.None"`), not the generic binary extension `bin` —
`ERF.export_entry` has no `or "bin"` fallback. -/
theorem c9_counterexample :
    ResourceTypeInfo.get_extension 1234 = none ∧
    ERF.export_entry_name ⟨"foo".toList, 1234, 0, 0, 0⟩ =
      "foo.None".toList ∧
    ERF.export_entry_name ⟨"foo".toList, 1234, 0, 0, 0⟩ ≠
      "foo.bin".toList := by
  refine ⟨rfl, by decide, by decide⟩

/-- C9 (amended): every export writes the extracted bytes to
`destination_dir/sanitized_name.ext` (RIM names are sanitized at parse
time), where `ext` is the Type Registry extension for the entry's type
code; for a type code absent from the registry, `RIM.export_entry` and
`ResourceManager.export_entry` fall back to the generic binary extension
`bin`, while `ERF.export_entry` renders the missing extension as the
literal string `None`. -/
theorem c9_amended (er : ERFEntry) (rr : RIMEntry) :
    (∀ x, ResourceTypeInfo.get_extension er.ResType = some x →
      ERF.export_entry_name er = sanitize_resref er.ResRef ++ '.' :: x) ∧
    (ResourceTypeInfo.get_extension er.ResType = none →
      ERF.export_entry_name er =
        sanitize_resref er.ResRef ++ '.' :: "None".toList) ∧
    (∀ x, ResourceTypeInfo.get_extension rr.ResType = some x →
      RIM.export_entry_name rr = rr.ResRef ++ '.' :: x) ∧
    (ResourceTypeInfo.get_extension rr.ResType = none →
      RIM.export_entry_name rr = rr.ResRef ++ '.' :: "bin".toList) ∧
    (∀ (bifs : Nat → Option BIFData) (e : KeyEntry) (d : List Nat),
      RM.extract_entry bifs e = .ok d →
      ResourceTypeInfo.get_extension e.ResourceType = none →
      RM.export_entry bifs e none =
        .ok (sanitize_resref e.ResRef ++ '.' :: "bin".toList, d)) := by
  refine ⟨?_, ?_, ?_, ?_, ?_⟩
  · intro x hx
    simp [ERF.export_entry_name, hx, pyStrOfOptExt]
  · intro hx
    simp [ERF.export_entry_name, hx, pyStrOfOptExt]
  · intro x hx
    simp [RIM.export_entry_name, hx]
  · intro hx
    simp [RIM.export_entry_name, hx]
  · intro bifs e d hd hx
    simp [RM.export_entry, hd, hx]

/-- C9 witness: the amended theorem at concrete entries — a known type
code (2002) uses its registry extension `mdl`, an unknown one (1234)
yields `None` for ERF and `bin` for RIM. -/
theorem c9_witness :
    ERF.export_entry_name ⟨"m1".toList, 2002, 0, 0, 0⟩ =
      sanitize_resref "m1".toList ++ '.' :: "mdl".toList ∧
    ERF.export_entry_name ⟨"m1".toList, 1234, 0, 0, 0⟩ =
      sanitize_resref "m1".toList ++ '.' :: "None".toList ∧
    RIM.export_entry_name ⟨"m1".toList, 1234, 0, 0, 0⟩ =
      "m1".toList ++ '.' :: "bin".toList :=
  ⟨(c9_amended ⟨"m1".toList, 2002, 0, 0, 0⟩ ⟨"m1".toList, 1234, 0, 0, 0⟩).1
      "mdl".toList (by decide),
   (c9_amended ⟨"m1".toList, 1234, 0, 0, 0⟩
      ⟨"m1".toList, 1234, 0, 0, 0⟩).2.1 (by decide),
   (c9_amended ⟨"m1".toList, 2002, 0, 0, 0⟩
      ⟨"m1".toList, 1234, 0, 0, 0⟩).2.2.2.1 (by decide)⟩

/-! ### TextureLookup: fuzzy candidate generation and matching -/

/-- Python `name.split(sep)` for a single-character separator: empty
segments are preserved and the empty string splits to `[""]`. -/
def pySplit (sep : Char) : List Char → List (List Char)
  | [] => [[]]
  | c :: rest =>
    match pySplit sep rest with
    | seg :: segs => if c = sep then [] :: seg :: segs else (c :: seg) :: segs
    | [] => [[]]

/-- Python `sep.join(parts)`. -/
def pyJoin (sep : List Char) : List (List Char) → List Char
  | [] => []
  | [s] => s
  | s :: rest => s ++ sep ++ pyJoin sep rest

/-- Python `name.rstrip("0123456789")`. -/
def rstripDigits (s : List Char) : List Char :=
  (s.reverse.dropWhile (fun c => c.isDigit)).reverse

/-- Python `s.strip("_")`: surrounding underscores removed. -/
def stripUnderscores (s : List Char) : List Char :=
  ((s.dropWhile (fun c => c == '_')).reverse.dropWhile
    (fun c => c == '_')).reverse

/-- Helper: `sub` is a leading segment of `s` (helper for Python's `in`). -/
def leadMatch : List Char → List Char → Bool
  | [], _ => true
  | _ :: _, [] => false
  | a :: as, b :: bs => a == b && leadMatch as bs

/-- Python `sub in s`: `sub` occurs contiguously in `s`. -/
def hasSub (sub : List Char) : List Char → Bool
  | [] => leadMatch sub []
  | c :: rest => leadMatch sub (c :: rest) || hasSub sub rest

namespace TextureLookup

/-- Source `TextureLookup.ALLOWED_TEXTURE_TYPES = {3007, 2007, 2033}`. -/
def ALLOWED_TEXTURE_TYPES : List Nat := [3007, 2007, 2033]

/-- The `add` closure inside `_substring_candidates`
(TextureLookup.py lines 54-57): strip surrounding underscores, keep only
candidates of length at least 3 not already collected, append at the
end. -/
def addCandidate (cands : List (List Char)) (s : List Char) :
    List (List Char) :=
  if 3 ≤ (stripUnderscores s).length ∧ stripUnderscores s ∉ cands then
    cands ++ [stripUnderscores s]
  else cands

/-- The `while len(parts) > 1` loop of `_substring_candidates`
(TextureLookup.py lines 63-66), with explicit fuel; the caller passes
`parts.length`, which bounds the iteration count. -/
def segLoop : Nat → List (List Char) → List (List Char) → List (List Char)
  | 0, cands, _ => cands
  | fuel + 1, cands, parts =>
    if 1 < parts.length then
      segLoop fuel (addCandidate cands (pyJoin ['_'] parts.dropLast))
        parts.dropLast
    else cands

/-- Source `TextureLookup._substring_candidates` (TextureLookup.py lines 47-68):
the lowercased name, the name with trailing digits stripped, then the
name with trailing underscore-delimited segments progressively removed. -/
def substring_candidates (resref : List Char) : List (List Char) :=
  let name := pyLower resref
  segLoop (pySplit '_' name).length
    (addCandidate (addCandidate [] name) (rstripDigits name))
    (pySplit '_' name)

/-- The score of one entry name: the longest nonempty candidate occurring
in it as a substring, 0 when none does (TextureLookup.py line 88). -/
def matchScore (substrings : List (List Char)) (name : List Char) : Nat :=
  ((substrings.filter (fun sub => !sub.isEmpty && hasSub sub name)).map
    (fun sub => sub.length)).foldl max 0

/-- One step of the `best_match` accumulation inside `_find_in_erfs`
(TextureLookup.py lines 83-91): non-texture types are skipped, a zero
score is skipped, and an entry replaces the current best only on a
strictly greater score (so earlier entries win ties). -/
def bestStep (substrings : List (List Char))
    (best : Option (Nat × ERFEntry)) (e : ERFEntry) :
    Option (Nat × ERFEntry) :=
  if e.ResType ∈ ALLOWED_TEXTURE_TYPES then
    let score := matchScore substrings (pyLower e.ResRef)
    if score ≠ 0 then
      match best with
      | none => some (score, e)
      | some b => if b.1 < score then some (score, e) else some b
    else best
  else best

/-- The `best_match` computed for one ERF's entry list. -/
def bestMatch (substrings : List (List Char)) (entries : List ERFEntry) :
    Option (Nat × ERFEntry) :=
  entries.foldl (bestStep substrings) none

/-- The fuzzy branch of `_find_in_erfs` (TextureLookup.py lines 70-94):
ERFs are scanned in order and the best match of the first ERF having any
match is returned; later ERFs are not consulted. -/
def find_in_erfs_fuzzy (substrings : List (List Char)) :
    List (List ERFEntry) → Option ERFEntry
  | [] => none
  | es :: rest =>
    match bestMatch substrings es with
    | some b => some b.2
    | none => find_in_erfs_fuzzy substrings rest

/-- Source `_find_in_erfs(paths, resref, allow partial matches)` as invoked by
`fetch_texture`: candidates are generated from the query name and the
ERF list is scanned. -/
def fuzzy_lookup (erfs : List (List ERFEntry)) (resref : List Char) :
    Option ERFEntry :=
  find_in_erfs_fuzzy (substring_candidates resref) erfs

end TextureLookup

/-! ### C5: what the fuzzy matcher actually selects -/

/-- Accumulator invariant of the `best_match` fold: any produced best
pair either was the incoming accumulator or is a texture entry of the
scanned list scoring its own nonzero match score; the final score
dominates every texture entry scanned and the incoming accumulator. -/
theorem bestMatch_go (substrings : List (List Char)) :
    ∀ (entries : List ERFEntry) (acc : Option (Nat × ERFEntry))
      (s : Nat) (e : ERFEntry),
      entries.foldl (TextureLookup.bestStep substrings) acc = some (s, e) →
      (acc = some (s, e) ∨
        (e ∈ entries ∧ e.ResType ∈ TextureLookup.ALLOWED_TEXTURE_TYPES ∧
          s = TextureLookup.matchScore substrings (pyLower e.ResRef) ∧
          0 < s)) ∧
      (∀ e' ∈ entries, e'.ResType ∈ TextureLookup.ALLOWED_TEXTURE_TYPES →
        TextureLookup.matchScore substrings (pyLower e'.ResRef) ≤ s) ∧
      (∀ s0 e0, acc = some (s0, e0) → s0 ≤ s) := by
  intro entries
  induction entries with
  | nil =>
    intro acc s e h
    rw [List.foldl_nil] at h
    refine ⟨Or.inl h, by simp, ?_⟩
    intro s0 e0 h0
    rw [h0] at h
    injection h with h
    injection h with h1 _
    omega
  | cons x xs ih =>
    intro acc s e h
    rw [List.foldl_cons] at h
    by_cases hA : x.ResType ∈ TextureLookup.ALLOWED_TEXTURE_TYPES
    · by_cases hS : TextureLookup.matchScore substrings (pyLower x.ResRef) = 0
      · have hstep : TextureLookup.bestStep substrings acc x = acc := by
          simp [TextureLookup.bestStep, hA, hS]
        rw [hstep] at h
        obtain ⟨h1, h2, h3⟩ := ih acc s e h
        refine ⟨?_, ?_, h3⟩
        · rcases h1 with h1 | h1
          · exact Or.inl h1
          · exact Or.inr ⟨List.mem_cons_of_mem _ h1.1, h1.2⟩
        · intro e' he' hA'
          rcases List.mem_cons.1 he' with rfl | he'
          · rw [hS]; omega
          · exact h2 e' he' hA'
      · cases acc with
        | none =>
          have hstep : TextureLookup.bestStep substrings none x =
              some (TextureLookup.matchScore substrings (pyLower x.ResRef),
                x) := by
            simp [TextureLookup.bestStep, hA, hS]
          rw [hstep] at h
          obtain ⟨h1, h2, h3⟩ := ih _ s e h
          have hsx : TextureLookup.matchScore substrings (pyLower x.ResRef)
              ≤ s := h3 _ _ rfl
          refine ⟨?_, ?_, ?_⟩
          · rcases h1 with h1 | h1
            · injection h1 with h1
              injection h1 with hs he
              subst he
              exact Or.inr ⟨List.mem_cons_self _ _, hA, hs.symm, by omega⟩
            · exact Or.inr ⟨List.mem_cons_of_mem _ h1.1, h1.2⟩
          · intro e' he' hA'
            rcases List.mem_cons.1 he' with rfl | he'
            · exact hsx
            · exact h2 e' he' hA'
          · intro s0 e0 h0
            simp at h0
        | some b =>
          obtain ⟨b1, be⟩ := b
          by_cases hlt :
              b1 < TextureLookup.matchScore substrings (pyLower x.ResRef)
          · have hstep : TextureLookup.bestStep substrings (some (b1, be)) x =
                some (TextureLookup.matchScore substrings (pyLower x.ResRef),
                  x) := by
              simp [TextureLookup.bestStep, hA, hS, hlt]
            rw [hstep] at h
            obtain ⟨h1, h2, h3⟩ := ih _ s e h
            have hsx : TextureLookup.matchScore substrings (pyLower x.ResRef)
                ≤ s := h3 _ _ rfl
            refine ⟨?_, ?_, ?_⟩
            · rcases h1 with h1 | h1
              · injection h1 with h1
                injection h1 with hs he
                subst he
                exact Or.inr ⟨List.mem_cons_self _ _, hA, hs.symm, by omega⟩
              · exact Or.inr ⟨List.mem_cons_of_mem _ h1.1, h1.2⟩
            · intro e' he' hA'
              rcases List.mem_cons.1 he' with rfl | he'
              · exact hsx
              · exact h2 e' he' hA'
            · intro s0 e0 h0
              injection h0 with h0
              injection h0 with hs0 _
              omega
          · have hstep : TextureLookup.bestStep substrings (some (b1, be)) x =
                some (b1, be) := by
              simp [TextureLookup.bestStep, hA, hS, hlt]
            rw [hstep] at h
            obtain ⟨h1, h2, h3⟩ := ih _ s e h
            have hb1 : b1 ≤ s := h3 _ _ rfl
            refine ⟨?_, ?_, h3⟩
            · rcases h1 with h1 | h1
              · exact Or.inl h1
              · exact Or.inr ⟨List.mem_cons_of_mem _ h1.1, h1.2⟩
            · intro e' he' hA'
              rcases List.mem_cons.1 he' with rfl | he'
              · omega
              · exact h2 e' he' hA'
    · have hstep : TextureLookup.bestStep substrings acc x = acc := by
        simp [TextureLookup.bestStep, hA]
      rw [hstep] at h
      obtain ⟨h1, h2, h3⟩ := ih acc s e h
      refine ⟨?_, ?_, h3⟩
      · rcases h1 with h1 | h1
        · exact Or.inl h1
        · exact Or.inr ⟨List.mem_cons_of_mem _ h1.1, h1.2⟩
      · intro e' he' hA'
        rcases List.mem_cons.1 he' with rfl | he'
        · exact absurd hA' hA
        · exact h2 e' he' hA'

/-- A positive match score is witnessed by a nonempty candidate occurring
in the name. -/
theorem matchScore_pos {substrings : List (List Char)} {name : List Char}
    (h : 0 < TextureLookup.matchScore substrings name) :
    ∃ sub ∈ substrings, sub ≠ [] ∧ hasSub sub name = true := by
  cases hf : substrings.filter (fun sub => !sub.isEmpty && hasSub sub name)
    with
  | nil =>
    rw [TextureLookup.matchScore, hf] at h
    simp at h
  | cons x xs =>
    have hx : x ∈ substrings.filter
        (fun sub => !sub.isEmpty && hasSub sub name) := by
      rw [hf]
      exact List.mem_cons_self _ _
    obtain ⟨hmem, hp⟩ := List.mem_filter.1 hx
    rw [Bool.and_eq_true] at hp
    obtain ⟨hne, hsub⟩ := hp
    refine ⟨x, hmem, ?_, hsub⟩
    intro hnil
    subst hnil
    simp at hne

/-- A fuzzy hit comes from the best match of some scanned ERF. -/
theorem find_in_erfs_fuzzy_some {substrings : List (List Char)}
    {erfs : List (List ERFEntry)} {e : ERFEntry}
    (h : TextureLookup.find_in_erfs_fuzzy substrings erfs = some e) :
    ∃ es ∈ erfs, ∃ s, TextureLookup.bestMatch substrings es = some (s, e) := by
  induction erfs with
  | nil => simp [TextureLookup.find_in_erfs_fuzzy] at h
  | cons es rest ih =>
    rw [TextureLookup.find_in_erfs_fuzzy] at h
    cases hb : TextureLookup.bestMatch substrings es with
    | some b =>
      obtain ⟨b1, b2⟩ := b
      rw [hb] at h
      injection h with h
      simp only at h
      subst h
      exact ⟨es, List.mem_cons_self _ _, b1, hb⟩
    | none =>
      rw [hb] at h
      obtain ⟨es', hmem, s, hs⟩ := ih h
      exact ⟨es', List.mem_cons_of_mem _ hmem, s, hs⟩

/-- C5 (counterexample): the matcher does not pick the globally longest
candidate match among all searched containers.  Querying `LOGO_SW_002`
against a first container holding only `xlogox` (matching candidate
`logo`, length 4) and a second container holding `LOGO_SW` (matching
candidate `logo_sw`, length 7) returns `xlogox`: the scan stops at the
first container with any match, so the longer match in the later
container is never considered. -/
theorem c5_counterexample :
    TextureLookup.fuzzy_lookup
      [[⟨"xlogox".toList, 3007, 3, 0, 0⟩], [⟨"LOGO_SW".toList, 3007, 0, 0, 0⟩]]
      "LOGO_SW_002".toList = some ⟨"xlogox".toList, 3007, 3, 0, 0⟩ ∧
    TextureLookup.matchScore
      (TextureLookup.substring_candidates "LOGO_SW_002".toList)
      (pyLower "xlogox".toList) = 4 ∧
    TextureLookup.matchScore
      (TextureLookup.substring_candidates "LOGO_SW_002".toList)
      (pyLower "LOGO_SW".toList) = 7 := by
  refine ⟨by decide, by decide, by decide⟩

/-- C5 (amended): candidates are generated exactly as described — the
full lowercased name, the name with trailing digits stripped, and the
name with trailing underscore segments progressively removed — but the
scan is per container: the resolver returns the best-scoring texture
entry of the *first* container containing any candidate match (earlier
entries win ties inside a container; later containers are consulted only
when every earlier one has no match).  Any returned entry contains some
candidate as a substring, so it is never unrelated; in particular, with
`LOGO_SW` in the first matching container, a query for `LOGO_SW_002`
resolves to `LOGO_SW` via trailing-digit stripping. -/
theorem c5_amended :
    (∀ (substrings : List (List Char)) (entries : List ERFEntry)
        (s : Nat) (e : ERFEntry),
      TextureLookup.bestMatch substrings entries = some (s, e) →
        e ∈ entries ∧ e.ResType ∈ TextureLookup.ALLOWED_TEXTURE_TYPES ∧
        s = TextureLookup.matchScore substrings (pyLower e.ResRef) ∧
        0 < s ∧
        ∀ e' ∈ entries, e'.ResType ∈ TextureLookup.ALLOWED_TEXTURE_TYPES →
          TextureLookup.matchScore substrings (pyLower e'.ResRef) ≤ s) ∧
    (∀ (erfs : List (List ERFEntry)) (resref : List Char) (e : ERFEntry),
      TextureLookup.fuzzy_lookup erfs resref = some e →
        e.ResType ∈ TextureLookup.ALLOWED_TEXTURE_TYPES ∧
        ∃ sub ∈ TextureLookup.substring_candidates resref,
          sub ≠ [] ∧ hasSub sub (pyLower e.ResRef) = true) ∧
    TextureLookup.substring_candidates "LOGO_SW_002".toList =
      ["logo_sw_002".toList, "logo_sw".toList, "logo".toList] ∧
    TextureLookup.fuzzy_lookup
      [[⟨"star_map".toList, 3007, 2, 0, 0⟩, ⟨"LOGO_SW".toList, 3007, 0, 0, 0⟩],
       [⟨"LOGO_SW_001".toList, 3007, 1, 0, 0⟩]] "LOGO_SW_002".toList =
      some ⟨"LOGO_SW".toList, 3007, 0, 0, 0⟩ := by
  refine ⟨?_, ?_, by decide, by decide⟩
  · intro substrings entries s e h
    obtain ⟨h1, h2, h3⟩ := bestMatch_go substrings entries none s e h
    rcases h1 with h1 | h1
    · cases h1
    · exact ⟨h1.1, h1.2.1, h1.2.2.1, h1.2.2.2, h2⟩
  · intro erfs resref e h
    obtain ⟨es, _hmem, s, hs⟩ := find_in_erfs_fuzzy_some h
    obtain ⟨h1, h2, h3⟩ := bestMatch_go _ es none s e hs
    rcases h1 with h1 | h1
    · cases h1
    · refine ⟨h1.2.1, ?_⟩
      have hpos : 0 < TextureLookup.matchScore
          (TextureLookup.substring_candidates resref) (pyLower e.ResRef) := by
        rw [← h1.2.2.1]
        exact h1.2.2.2
      exact matchScore_pos hpos

/-- C5 witness: the maximality statement applied to the container
holding `LOGO_SW` and `LOGO_SW_001`, whose best match for
`LOGO_SW_002` is `LOGO_SW` with score 7. -/
theorem c5_witness :
    (⟨"LOGO_SW".toList, 3007, 0, 0, 0⟩ : ERFEntry) ∈
      [⟨"LOGO_SW".toList, 3007, 0, 0, 0⟩,
       (⟨"LOGO_SW_001".toList, 3007, 1, 0, 0⟩ : ERFEntry)] ∧
    (⟨"LOGO_SW".toList, 3007, 0, 0, 0⟩ : ERFEntry).ResType ∈
      TextureLookup.ALLOWED_TEXTURE_TYPES ∧
    7 = TextureLookup.matchScore
      (TextureLookup.substring_candidates "LOGO_SW_002".toList)
      (pyLower (⟨"LOGO_SW".toList, 3007, 0, 0, 0⟩ : ERFEntry).ResRef) ∧
    0 < 7 ∧
    ∀ e' ∈ [⟨"LOGO_SW".toList, 3007, 0, 0, 0⟩,
       (⟨"LOGO_SW_001".toList, 3007, 1, 0, 0⟩ : ERFEntry)],
      e'.ResType ∈ TextureLookup.ALLOWED_TEXTURE_TYPES →
      TextureLookup.matchScore
        (TextureLookup.substring_candidates "LOGO_SW_002".toList)
        (pyLower e'.ResRef) ≤ 7 :=
  c5_amended.1 (TextureLookup.substring_candidates "LOGO_SW_002".toList)
    [⟨"LOGO_SW".toList, 3007, 0, 0, 0⟩, ⟨"LOGO_SW_001".toList, 3007, 1, 0, 0⟩]
    7 ⟨"LOGO_SW".toList, 3007, 0, 0, 0⟩ (by decide)

/-! ### C10: the minimum candidate length gate -/

/-- Lemma: `add` only ever appends stripped candidates of length at least 3. -/
theorem addCandidate_length {cands : List (List Char)} {s : List Char}
    (hc : ∀ c ∈ cands, 3 ≤ c.length) :
    ∀ c ∈ TextureLookup.addCandidate cands s, 3 ≤ c.length := by
  intro c hc2
  unfold TextureLookup.addCandidate at hc2
  split at hc2
  case isTrue h =>
    rcases List.mem_append.1 hc2 with h2 | h2
    · exact hc c h2
    · simp at h2
      subst h2
      exact h.1
  case isFalse => exact hc c hc2

/-- The segment-stripping loop preserves the length bound. -/
theorem segLoop_length :
    ∀ (fuel : Nat) (cands parts : List (List Char)),
      (∀ c ∈ cands, 3 ≤ c.length) →
      ∀ c ∈ TextureLookup.segLoop fuel cands parts, 3 ≤ c.length := by
  intro fuel
  induction fuel with
  | zero =>
    intro cands parts hc
    rw [TextureLookup.segLoop]
    exact hc
  | succ n ih =>
    intro cands parts hc
    rw [TextureLookup.segLoop]
    split
    · exact ih _ _ (addCandidate_length hc)
    · exact hc

/-- With no candidates every score is 0, so one fold step keeps the
accumulator. -/
theorem bestMatch_no_candidates (entries : List ERFEntry) :
    TextureLookup.bestMatch [] entries = none := by
  have hstep : ∀ (acc : Option (Nat × ERFEntry)) (e : ERFEntry),
      TextureLookup.bestStep [] acc e = acc := by
    intro acc e
    simp [TextureLookup.bestStep, TextureLookup.matchScore]
  induction entries with
  | nil => rfl
  | cons e rest ih =>
    rw [TextureLookup.bestMatch, List.foldl_cons, hstep]
    exact ih

/-- C10: every candidate the fuzzy matcher uses has length at least 3
after surrounding underscores are stripped, and when the candidate list
is empty (every generated candidate was shorter than 3) the fuzzy
search returns no entry from any container list. -/
theorem c10_candidate_gate (resref : List Char)
    (erfs : List (List ERFEntry)) :
    (∀ c ∈ TextureLookup.substring_candidates resref, 3 ≤ c.length) ∧
    (TextureLookup.substring_candidates resref = [] →
      TextureLookup.fuzzy_lookup erfs resref = none) := by
  constructor
  · unfold TextureLookup.substring_candidates
    exact segLoop_length _ _ _
      (addCandidate_length (addCandidate_length (by simp)))
  · intro h
    unfold TextureLookup.fuzzy_lookup
    rw [h]
    induction erfs with
    | nil => rfl
    | cons es rest ih =>
      rw [TextureLookup.find_in_erfs_fuzzy, bestMatch_no_candidates]
      exact ih

/-- C10 witness: the two-letter query `ab` generates no candidate at all
and the fuzzy search over a populated container finds nothing. -/
theorem c10_witness :
    TextureLookup.substring_candidates "ab".toList = [] ∧
    TextureLookup.fuzzy_lookup [[⟨"LOGO_SW".toList, 3007, 0, 0, 0⟩]]
      "ab".toList = none :=
  ⟨by decide,
   (c10_candidate_gate "ab".toList
      [[⟨"LOGO_SW".toList, 3007, 0, 0, 0⟩]]).2 (by decide)⟩

/-! ### C7: fallback hits of compressed-texture type are decoded -/

/-- Result triple of `TextureLookup._convert_result`:
`(bytes, mime, filename)`. -/
structure TextureResult where
  data : List Nat
  mime : List Char
  name : List Char
deriving DecidableEq

namespace TextureLookup

/-- Source `TextureLookup._convert_result` (TextureLookup.py lines 97-113).
`pngConv` models `tpc_bytes_to_png_bytes`, whose decoder comes from the
external pykotor library: `some png` when conversion succeeds, `none`
when it raises.  The compressed-texture (TPC) type codes 2007/3007 are
decoded to PNG; on failure the raw bytes are returned under a `.tpc`
filename; the remaining texture type (DDS, 2033) and any other type pass
the raw bytes through. -/
def convert_result (pngConv : List Nat → Option (List Nat))
    (erfData : List Nat) (e : ERFEntry) : TextureResult :=
  let data := ERF.extract_entry erfData e
  let ext := (ResourceTypeInfo.get_extension e.ResType).getD "bin".toList
  if e.ResType = 2007 ∨ e.ResType = 3007 then
    match pngConv data with
    | some png => ⟨png, "image/png".toList, e.ResRef ++ ".png".toList⟩
    | none =>
      ⟨data, "application/octet-stream".toList, e.ResRef ++ ".tpc".toList⟩
  else if e.ResType = 2033 then
    ⟨data, "image/vnd.ms-dds".toList, e.ResRef ++ ".dds".toList⟩
  else
    ⟨data, "application/octet-stream".toList, e.ResRef ++ '.' :: ext⟩

end TextureLookup

/-- C7: whenever the fallback resolver converts an entry of a
compressed-texture (TPC) type code, the returned bytes are the PNG
decoding with a `.png` filename; the raw compressed bytes are returned
only when decoding fails, and then the filename carries the raw `.tpc`
extension instead. -/
theorem c7_tpc_conversion (pngConv : List Nat → Option (List Nat))
    (erfData : List Nat) (e : ERFEntry)
    (ht : e.ResType = 2007 ∨ e.ResType = 3007) :
    (∀ png, pngConv (ERF.extract_entry erfData e) = some png →
      TextureLookup.convert_result pngConv erfData e =
        ⟨png, "image/png".toList, e.ResRef ++ ".png".toList⟩) ∧
    (pngConv (ERF.extract_entry erfData e) = none →
      TextureLookup.convert_result pngConv erfData e =
        ⟨ERF.extract_entry erfData e, "application/octet-stream".toList,
          e.ResRef ++ ".tpc".toList⟩) := by
  constructor
  · intro png hpng
    simp [TextureLookup.convert_result, ht, hpng]
  · intro hpng
    simp [TextureLookup.convert_result, ht, hpng]

/-- C7 witness: a type-3007 entry decoded successfully yields the PNG
bytes and name; with a failing decoder the raw bytes and `.tpc` name
come back. -/
theorem c7_witness :
    TextureLookup.convert_result (fun _ => some [9]) [1, 2]
      ⟨"t".toList, 3007, 0, 0, 2⟩ =
      ⟨[9], "image/png".toList, "t".toList ++ ".png".toList⟩ ∧
    TextureLookup.convert_result (fun _ => none) [1, 2]
      ⟨"t".toList, 3007, 0, 0, 2⟩ =
      ⟨ERF.extract_entry [1, 2] ⟨"t".toList, 3007, 0, 0, 2⟩,
        "application/octet-stream".toList, "t".toList ++ ".tpc".toList⟩ :=
  ⟨(c7_tpc_conversion (fun _ => some [9]) [1, 2] ⟨"t".toList, 3007, 0, 0, 2⟩
      (Or.inr rfl)).1 [9] rfl,
   (c7_tpc_conversion (fun _ => none) [1, 2] ⟨"t".toList, 3007, 0, 0, 2⟩
      (Or.inr rfl)).2 rfl⟩

/-! ### C8: the PNG encoder (`TPCToPNG.py`) -/

namespace TPC

/-- The three raster modes produced by `decode_tpc` (`"L"`, `"RGB"`,
`"RGBA"`); `_encode_png` raises on anything else. -/
inductive PNGMode where
  | L
  | RGB
  | RGBA
deriving DecidableEq

/-- Source `channels = {"L": 1, "RGB": 3, "RGBA": 4}` (TPCToPNG.py line 48). -/
def channelsOf : PNGMode → Nat
  | .L => 1
  | .RGB => 3
  | .RGBA => 4

/-- Source `color_types = {"L": 0, "RGB": 2, "RGBA": 6}` (TPCToPNG.py line 47). -/
def colorTypeOf : PNGMode → Nat
  | .L => 0
  | .RGB => 2
  | .RGBA => 6

/-- Source `struct.pack("!I", n)` for `n < 2^32`: big-endian 4-byte encoding. -/
def be32 (n : Nat) : List Nat :=
  [(n >>> 24) &&& 255, (n >>> 16) &&& 255, (n >>> 8) &&& 255, n &&& 255]

/-- One shift round of the bitwise CRC-32 (polynomial `0xEDB88320`). -/
def crcStep (c : Nat) : Nat :=
  if c % 2 = 1 then (c / 2) ^^^ 0xEDB88320 else c / 2

/-- Fold one byte into the CRC-32 state. -/
def crcByte (c b : Nat) : Nat := crcStep^[8] (c ^^^ b)

/-- Source `binascii.crc32(data) & 0xFFFFFFFF`: the standard CRC-32 used by the
encoder for chunk checksums. -/
def crc32 (data : List Nat) : Nat :=
  (data.foldl crcByte 0xFFFFFFFF) ^^^ 0xFFFFFFFF

/-- Source `_png_chunk` (TPCToPNG.py lines 38-42): 4-byte big-endian data
length, chunk type, chunk data, 4-byte big-endian CRC of type+data. -/
def png_chunk (chunk_type chunk_data : List Nat) : List Nat :=
  be32 chunk_data.length ++ chunk_type ++ chunk_data ++
    be32 (crc32 (chunk_type ++ chunk_data))

/-- The fixed 8-byte PNG file signature `b"\x89PNG\r\n\x1a\n"`. -/
def PNG_SIG : List Nat := [137, 80, 78, 71, 13, 10, 26, 10]

/-- Chunk type `b"IHDR"`. -/
def IHDR : List Nat := [73, 72, 68, 82]

/-- Chunk type `b"IDAT"`. -/
def IDAT : List Nat := [73, 68, 65, 84]

/-- Chunk type `b"IEND"`. -/
def IEND : List Nat := [73, 69, 78, 68]

/-- The scanline buffer loop of `_encode_png` (TPCToPNG.py lines 53-57):
for each row, append the filter-type byte 0, then the row bytes. -/
def scanlines (height stride : Nat) (data : List Nat) : List Nat :=
  (List.range height).foldl
    (fun raw y => raw ++ 0 :: (data.drop (y * stride)).take stride) []

/-- The packed IHDR payload (TPCToPNG.py lines 59-68): width, height,
bit depth 8, color type from the mode, and zero
compression/filter/interlace flags. -/
def ihdrBytes (width height : Nat) (mode : PNGMode) : List Nat :=
  be32 width ++ be32 height ++ [8, colorTypeOf mode, 0, 0, 0]

/-- Source `_encode_png` (TPCToPNG.py lines 45-75) with `zlib.compress`
abstracted as the `compress` parameter: signature, IHDR chunk, IDAT
chunk holding the compressed scanline stream, IEND chunk. -/
def encode_png (compress : List Nat → List Nat) (width height : Nat)
    (mode : PNGMode) (data : List Nat) : List Nat :=
  PNG_SIG ++ png_chunk IHDR (ihdrBytes width height mode) ++
    png_chunk IDAT
      (compress (scanlines height (width * channelsOf mode) data)) ++
    png_chunk IEND []

/-- Python slice assignment `buf[pos : pos + width] = xs` on a
`bytearray` with nonnegative in-range bounds. -/
def setSlice (buf : List Nat) (pos width : Nat) (xs : List Nat) :
    List Nat :=
  buf.take pos ++ xs ++ buf.drop (pos + width)

/-- Source `_flip_vertical` (TPCToPNG.py lines 27-35): a zero-filled buffer of
the same size receives source row `y` at destination row
`height - 1 - y`. -/
def flip_vertical (width height channels : Nat) (data : List Nat) :
    List Nat :=
  (List.range height).foldl
    (fun flipped y =>
      setSlice flipped ((height - 1 - y) * (width * channels))
        (width * channels)
        ((data.drop (y * (width * channels))).take (width * channels)))
    (List.replicate data.length 0)

/-- The in-memory pipeline of `tpc_bytes_to_png_bytes` (TPCToPNG.py
lines 153-156) after the external pykotor decode produced
`(width, height, mode, data)`: flip vertically, then encode. -/
def tpc_decoded_to_png (compress : List Nat → List Nat)
    (width height : Nat) (mode : PNGMode) (data : List Nat) : List Nat :=
  encode_png compress width height mode
    (flip_vertical width height (channelsOf mode) data)

/-- The rows of a pixel buffer at a given stride (specification-side
helper for stating the theorems). -/
def rowsOf (stride height : Nat) (data : List Nat) : List (List Nat) :=
  (List.range height).map (fun y => (data.drop (y * stride)).take stride)

end TPC

/-- Appending through a left fold is flattening. -/
theorem foldl_append_eq_flatten {α : Type} (f : α → List Nat) :
    ∀ (l : List α) (acc : List Nat),
      l.foldl (fun a x => a ++ f x) acc = acc ++ (l.map f).flatten := by
  intro l
  induction l with
  | nil => intro acc; simp
  | cons x xs ih => intro acc; simp [List.foldl_cons, ih]

/-- The scanline loop produces each row prefixed by the zero filter-type
byte, concatenated in order. -/
theorem scanlines_eq (height stride : Nat) (data : List Nat) :
    TPC.scanlines height stride data =
      ((TPC.rowsOf stride height data).map (fun r => 0 :: r)).flatten := by
  rw [TPC.scanlines, foldl_append_eq_flatten
    (fun y => 0 :: (data.drop (y * stride)).take stride)
    (List.range height) []]
  simp [TPC.rowsOf, List.map_map]
  rfl

/-- Flattening a list of uniform-length rows multiplies the lengths. -/
theorem flatten_length_uniform {k : Nat} :
    ∀ (rs : List (List Nat)), (∀ r ∈ rs, r.length = k) →
      rs.flatten.length = rs.length * k := by
  intro rs
  induction rs with
  | nil => simp
  | cons r rest ih =>
    intro h
    have hr : r.length = k := h r (List.mem_cons_self _ _)
    have hrest := ih (fun r' hr' => h r' (List.mem_cons_of_mem _ hr'))
    simp only [List.flatten_cons, List.length_append, List.length_cons, hr,
      hrest]
    ring

/-- Every full-stride row of a buffer of exactly `height * stride` bytes
has length `stride`. -/
theorem rowsOf_length_uniform (stride height : Nat) (data : List Nat)
    (hlen : data.length = height * stride) :
    ∀ y, y < height →
      ((data.drop (y * stride)).take stride).length = stride := by
  intro y hy
  rw [List.length_take, List.length_drop, hlen]
  have heq : height * stride - y * stride = (height - y) * stride := by
    rw [Nat.sub_mul]
  rw [heq]
  exact Nat.min_eq_left (Nat.le_mul_of_pos_left stride (by omega))

/-- Invariant of the `_flip_vertical` loop: after writing the first `h`
source rows, the last `h` destination blocks hold those rows in reverse
order and the leading blocks still hold the initial buffer. -/
theorem flip_fold (data : List Nat) (stride : Nat) (H : Nat)
    (init : List Nat) (hinit : init.length = H * stride) :
    ∀ h : Nat, h ≤ H →
      (∀ y, y < h → ((data.drop (y * stride)).take stride).length = stride) →
      (List.range h).foldl
        (fun buf y => TPC.setSlice buf ((H - 1 - y) * stride) stride
          ((data.drop (y * stride)).take stride)) init
      = init.take ((H - h) * stride) ++
          ((List.range h).map
            (fun y => (data.drop (y * stride)).take stride)).reverse.flatten
    := by
  intro h
  induction h with
  | zero =>
    intro _ _
    rw [List.range_zero, List.foldl_nil, Nat.sub_zero, ← hinit,
      List.take_length]
    simp
  | succ n ih =>
    intro hle hrows
    rw [List.range_succ, List.foldl_append,
      ih (by omega) (fun y hy => hrows y (by omega))]
    simp only [List.foldl_cons, List.foldl_nil]
    have hAlen : (init.take ((H - n) * stride)).length = (H - n) * stride := by
      rw [List.length_take, hinit]
      exact Nat.min_eq_left (Nat.mul_le_mul_right stride (Nat.sub_le H n))
    have hple : (H - 1 - n) * stride ≤ (H - n) * stride :=
      Nat.mul_le_mul_right stride (by omega)
    have hpstride : (H - 1 - n) * stride + stride = (H - n) * stride := by
      have hh : H - n = (H - 1 - n) + 1 := by omega
      rw [hh, Nat.succ_mul]
    rw [TPC.setSlice,
      List.take_append_of_le_length (by rw [hAlen]; exact hple),
      List.take_take, Nat.min_eq_left hple, hpstride,
      List.drop_left' hAlen]
    rw [List.map_append, List.reverse_append]
    simp only [List.map_cons, List.map_nil, List.reverse_cons,
      List.reverse_nil, List.nil_append, List.flatten_cons]
    have hsub : H - (n + 1) = H - 1 - n := by omega
    rw [hsub]
    simp [List.append_assoc]

/-- Source `_flip_vertical` reverses the row order of an exactly-sized pixel
buffer. -/
theorem flip_vertical_eq (width height channels : Nat) (data : List Nat)
    (hlen : data.length = height * (width * channels)) :
    TPC.flip_vertical width height channels data =
      (TPC.rowsOf (width * channels) height data).reverse.flatten := by
  have hrows := rowsOf_length_uniform (width * channels) height data hlen
  have hmain := flip_fold data (width * channels) height
    (List.replicate data.length 0) (by simp [hlen]) height le_rfl hrows
  rw [TPC.flip_vertical, hmain]
  simp [TPC.rowsOf]

/-- Cutting a flattening of uniform rows back into rows recovers them. -/
theorem rowsOf_flatten {stride : Nat} :
    ∀ (rs : List (List Nat)), (∀ r ∈ rs, r.length = stride) →
      TPC.rowsOf stride rs.length rs.flatten = rs := by
  intro rs
  induction rs with
  | nil => intro _; simp [TPC.rowsOf]
  | cons r rest ih =>
    intro h
    have hr : r.length = stride := h r (List.mem_cons_self _ _)
    have hrest := ih (fun r' hr' => h r' (List.mem_cons_of_mem _ hr'))
    rw [TPC.rowsOf, List.length_cons, List.range_succ_eq_map,
      List.map_cons, List.map_map]
    have hhead :
        List.take stride (List.drop (0 * stride) (r :: rest).flatten) = r := by
      simp only [Nat.zero_mul, List.drop_zero, List.flatten_cons]
      exact List.take_left' hr
    have htail : List.map
        ((fun y => List.take stride (List.drop (y * stride)
          (r :: rest).flatten)) ∘ Nat.succ) (List.range rest.length) =
        TPC.rowsOf stride rest.length rest.flatten := by
      rw [TPC.rowsOf]
      apply List.map_congr_left
      intro y _
      simp only [Function.comp_apply, List.flatten_cons, Nat.succ_mul,
        Nat.add_comm (y * stride) stride]
      rw [← hr, List.drop_append]
    rw [hhead, htail, hrest]

/-- C8: for an exactly-sized decoded texture, the encoder's output is
the 8-byte PNG signature, an IHDR chunk carrying width, height, bit
depth 8, the mode's color type (0 for luminance, 2 for RGB, 6 for RGBA)
and zero compression/filter/interlace flags, an IDAT chunk holding the
deflate-compressed concatenation of the scanlines each prefixed with a
zero filter-type byte, and an IEND chunk — every chunk length-prefixed
and CRC-suffixed — and the pixel rows are vertically flipped (row order
reversed) before encoding, as witnessed by the reversed row order inside
the IDAT payload.  `compress` abstracts `zlib.compress`. -/
theorem c8_png_encoder (compress : List Nat → List Nat)
    (width height : Nat) (mode : TPC.PNGMode) (data : List Nat)
    (hlen : data.length = height * (width * TPC.channelsOf mode)) :
    TPC.tpc_decoded_to_png compress width height mode data =
      TPC.PNG_SIG ++
      TPC.png_chunk TPC.IHDR
        (TPC.be32 width ++ TPC.be32 height ++
          [8, TPC.colorTypeOf mode, 0, 0, 0]) ++
      TPC.png_chunk TPC.IDAT
        (compress
          (((TPC.rowsOf (width * TPC.channelsOf mode) height data).reverse.map
            (fun r => 0 :: r)).flatten)) ++
      TPC.png_chunk TPC.IEND [] ∧
    (∀ t d, TPC.png_chunk t d =
      TPC.be32 d.length ++ t ++ d ++ TPC.be32 (TPC.crc32 (t ++ d))) ∧
    TPC.flip_vertical width height (TPC.channelsOf mode) data =
      (TPC.rowsOf (width * TPC.channelsOf mode) height data).reverse.flatten
    := by
  have hflip := flip_vertical_eq width height (TPC.channelsOf mode) data hlen
  refine ⟨?_, fun t d => rfl, hflip⟩
  rw [TPC.tpc_decoded_to_png, TPC.encode_png, hflip, scanlines_eq]
  have hrows : ∀ r ∈ (TPC.rowsOf (width * TPC.channelsOf mode) height
      data).reverse, r.length = width * TPC.channelsOf mode := by
    intro r hr
    rw [List.mem_reverse] at hr
    obtain ⟨y, hy, rfl⟩ := List.mem_map.1 hr
    exact rowsOf_length_uniform _ height data hlen y (List.mem_range.1 hy)
  have hlen_rev : (TPC.rowsOf (width * TPC.channelsOf mode) height
      data).reverse.length = height := by
    simp [TPC.rowsOf]
  have hcut := rowsOf_flatten
    ((TPC.rowsOf (width * TPC.channelsOf mode) height data).reverse) hrows
  rw [hlen_rev] at hcut
  rw [hcut]
  rfl

/-- C8 witness: the structural theorem at a 1×2 one-channel image with
the identity standing in for the compressor. -/
theorem c8_witness :
    TPC.tpc_decoded_to_png (fun b => b) 1 2 TPC.PNGMode.L [5, 9] =
      TPC.PNG_SIG ++
      TPC.png_chunk TPC.IHDR
        (TPC.be32 1 ++ TPC.be32 2 ++
          [8, TPC.colorTypeOf TPC.PNGMode.L, 0, 0, 0]) ++
      TPC.png_chunk TPC.IDAT
        ((fun b => b)
          (((TPC.rowsOf (1 * TPC.channelsOf TPC.PNGMode.L) 2
              [5, 9]).reverse.map (fun r => 0 :: r)).flatten)) ++
      TPC.png_chunk TPC.IEND [] ∧
    (∀ t d, TPC.png_chunk t d =
      TPC.be32 d.length ++ t ++ d ++ TPC.be32 (TPC.crc32 (t ++ d))) ∧
    TPC.flip_vertical 1 2 (TPC.channelsOf TPC.PNGMode.L) [5, 9] =
      (TPC.rowsOf (1 * TPC.channelsOf TPC.PNGMode.L) 2
        [5, 9]).reverse.flatten :=
  c8_png_encoder (fun b => b) 1 2 TPC.PNGMode.L [5, 9] (by decide)
